/-
Verification of the axom multi-dimensional array core: shape/stride
bookkeeping (ArrayBase), the owning/viewing duality (Array / ArrayView),
the element lifecycle operators (ArrayOpsBase / ArrayOps), the memory
management primitives (axom::alloc / axom::free / axom::realloc), and the
sidre-backed Array's dynamic reallocation policy.

The embedding is shallow: `IndexType` (a signed integer type) is modeled
as `Int`, raw element buffers as `List Int` (the element type is
irrelevant to the verified properties, so elements are `Int`), heap
memory as functions from block address and offset to value, and the
`double` resize ratio as `ℚ` (the concrete ratios appearing in the
claims, such as 2.0, are exactly representable as doubles, so rational
arithmetic coincides with the double arithmetic the source performs).
-/
import Mathlib

namespace Axom

/-! ## ArrayBase: shape and stride bookkeeping (src/axom/core/ArrayBase.hpp) -/

/-- Row-major strides computed from the extents, as in
`ArrayBase::updateStrides`: the loop sets `m_strides[DIM-1] = 1` and then
`m_strides[i] = m_strides[i+1] * m_dims[i+1]` for `i` from `DIM-2` down
to `0`.  Every entry of the stride array is overwritten, so the result
depends only on the extents. -/
def updateStrides : List Int → List Int
  | [] => []
  | [_] => [1]
  | _ :: d :: rest => ((updateStrides (d :: rest)).headI * d) :: updateStrides (d :: rest)

/-- The state of a DIM-dimensional Array-like object: the extents
`m_dims`, the strides `m_strides`, the flat element buffer, and the
allocator id exposed by the derived container's `getAllocatorID()`. -/
structure ArrayModel where
  dims : List Int
  strides : List Int
  data : List Int
  allocId : Int
deriving DecidableEq, Repr

/-- The `ArrayBase` parameterized constructor: stores the extents and
calls `updateStrides()`; the data and allocator id are those installed by
the derived container. -/
def arrayBaseMk (dims data : List Int) (allocId : Int) : ArrayModel :=
  { dims := dims, strides := updateStrides dims, data := data, allocId := allocId }

/-- Re-running `updateStrides()` on an existing state (reads `m_dims`,
overwrites `m_strides`). -/
def applyUpdateStrides (a : ArrayModel) : ArrayModel :=
  { a with strides := updateStrides a.dims }

/-- The derived container's raw-data insert `insert(pos, n, data)`
(declared by the `ArrayType` capability contract of ArrayBase.hpp).
Modelled from the spec: the implementation lives in
axom/core/Array.hpp, which is not among the given sources; per spec
section 4.4 it shifts the tail right and copies the incoming elements
into the freed slots, i.e. it splices the incoming buffer in at the flat
position `pos`. -/
def insertData (data : List Int) (pos : Int) (other : List Int) : List Int :=
  data.take pos.toNat ++ other ++ data.drop pos.toNat

/-- `ArrayBase::insert(pos, other)` for `DIM ≥ 2`, in a debug
(`AXOM_DEBUG`) build: first the trailing extents are compared
(`std::equal(m_dims.begin()+1, m_dims.end(), other.shape().begin()+1)`);
on mismatch a diagnostic is printed and `processAbort()` is called with
nothing yet mutated (modeled as `Except.error` carrying the diagnostic
and the state at the abort); otherwise `m_dims[0] += other.shape()[0]`,
the raw data is inserted, and `updateStrides()` runs. -/
def insertArr (pos : Int) (a other : ArrayModel) : Except (String × ArrayModel) ArrayModel :=
  if a.dims.tail = other.dims.tail then
    let newDims := (a.dims.headI + other.dims.headI) :: a.dims.tail
    Except.ok { dims := newDims
                strides := updateStrides newDims
                data := insertData a.data pos other.data
                allocId := a.allocId }
  else
    Except.error ("Cannot append a multidimensional array of incorrect shape.", a)

/-- The row-major stride property the spec states for a stride tuple
relative to a shape tuple: same length, innermost stride 1, and
`stride[i] = stride[i+1] * shape[i+1]`. -/
def rowMajor (dims strides : List Int) : Prop :=
  strides.length = dims.length ∧ strides.getLast? = some 1 ∧
    ∀ i < dims.length - 1,
      strides.getD i 0 = strides.getD (i + 1) 0 * dims.getD (i + 1) 0

instance (dims strides : List Int) : Decidable (rowMajor dims strides) := by
  unfold rowMajor; infer_instance

/-! ## Multi-index accessor (ArrayBase::operator(), numerics::dot_product) -/

/-- `numerics::dot_product(u, v, DIM)`: the sum of componentwise products
over the first `DIM` entries (both argument lists have length `DIM` at
every call site in ArrayBase). -/
def dotProd : List Int → List Int → Int
  | x :: xs, y :: ys => x * y + dotProd xs ys
  | _, _ => 0

/-- `size()` of the derived container: `m_num_elements`, the product of
the extents along all axes. -/
def sizeM (a : ArrayModel) : Int := a.dims.prod

/-- `ArrayBase::inBounds(idx)`: `idx >= 0 && idx < asDerived().size()` —
the bound the `assert` in `operator()` and `operator[]` actually
checks. -/
def inBoundsM (a : ArrayModel) (idx : Int) : Bool :=
  decide (0 ≤ idx ∧ idx < sizeM a)

/-- The flat offset computed by `operator()`:
`numerics::dot_product(indices, m_strides.begin(), DIM)`. -/
def flatIndex (a : ArrayModel) (idxs : List Int) : Int := dotProd idxs a.strides

/-- `asDerived().data()[idx]` — reading the flat buffer. -/
def elemAt (a : ArrayModel) (idx : Int) : Int := a.data.getD idx.toNat 0

/-- `ArrayBase::operator()(i0, ..., i_{DIM-1})` in a debug build: computes
the dot-product offset, asserts `inBounds(idx)` (modeled as `none` on
assertion failure), and returns `data()[idx]`. -/
def opParen (a : ArrayModel) (idxs : List Int) : Option Int :=
  if inBoundsM a (flatIndex a idxs) = true then some (elemAt a (flatIndex a idxs))
  else none

/-- An `Array<int,2>` of shape `{2,3}` filled row-major with `0..5`. -/
def arr23 : ArrayModel := arrayBaseMk [2, 3] [0, 1, 2, 3, 4, 5] 0

/-! ## Heap model shared by the ArrayView and lifecycle-operator claims -/

/-- Heap memory: a value for every (block address, element offset) pair.
Address 0 is ordinary; null pointers are modeled as `Option.none` where
they can occur. -/
def Heap := Nat → Int → Int

/-- Point update of one element of one block. -/
def heapWrite (h : Heap) (p : Nat) (i : Int) (x : Int) : Heap :=
  fun q j => if q = p ∧ j = i then x else h q j

/-- A concrete heap holding zeros everywhere, used by the witnesses. -/
def heap0 : Heap := fun _ _ => 0

/-! ## ArrayView construction from an Array-like object
(ArrayView.hpp, `ArrayView(ArrayBase<T,DIM,OtherArrayType>& other)`) -/

/-- An owning Array whose elements live in heap memory at block `ptr`:
the ArrayBase metadata plus `data()`, `size()` and `getAllocatorID()`. -/
structure ArrayWithPtr where
  dims : List Int
  strides : List Int
  ptr : Nat
  numElements : Int
  allocId : Int

/-- An ArrayView: `m_data` (the borrowed block address),
`m_num_elements`, `m_allocator_id`, plus the copied ArrayBase
metadata. -/
structure ArrayViewModel where
  dims : List Int
  strides : List Int
  ptr : Nat
  numElements : Int
  allocId : Int

/-- The `ArrayView(ArrayBase& other)` constructor (the `Dynamic`
memory-space instantiation, where no allocator check is compiled in): the
base-subobject copy takes `other.shape()` and `other.strides()`, and the
member initializers take `other.data()`, `other.size()` and
`other.getAllocatorID()`.  No heap memory is read or written — the
constructor has no `Heap` argument. -/
def makeArrayView (a : ArrayWithPtr) : ArrayViewModel :=
  ⟨a.dims, a.strides, a.ptr, a.numElements, a.allocId⟩

/-- Writing element `i` through a view's `operator[]`: a store at offset
`i` of the block `m_data` points to. -/
def viewSet (h : Heap) (v : ArrayViewModel) (i : Int) (x : Int) : Heap :=
  heapWrite h v.ptr i x

/-- Reading element `i` through the owning Array's `operator[]`. -/
def arrGet (h : Heap) (a : ArrayWithPtr) (i : Int) : Int := h a.ptr i

/-- A concrete owning array over heap block 5 with 3 elements. -/
def own0 : ArrayWithPtr := ⟨[3], [1], 5, 3, 0⟩

/-! ## Element lifecycle operators
(ArrayBase.hpp, `detail::ArrayOpsBase<T, false>` and `detail::ArrayOps`) -/

/-- The sequence of destructor invocations performed by
`ArrayOpsBase<T, false>::destroy(array, begin, end)`: nothing when
`std::is_trivially_destructible<T>` holds, otherwise `array[i].~T()` for
`i = begin, ..., end - 1` in order. -/
def destroyCalls (trivialDtor : Bool) (b e : Int) : List Int :=
  if trivialDtor then []
  else (List.range (e - b).toNat).map (fun (k : Nat) => b + (k : Int))

/-- The heap effect of `ArrayOpsBase<T, false>::destroy`: folding the
destructor's (arbitrary) memory effect over the destroyed range; the
trivially-destructible case executes nothing at all. -/
def baseDestroyHeap (dtorEffect : Heap → Int → Heap) (trivialDtor : Bool)
    (h : Heap) (b e : Int) : Heap :=
  if trivialDtor then h else (destroyCalls false b e).foldl dtorEffect h

/-- `detail::ArrayOps<T, SPACE>::destroy(array, begin, end, allocId)` for
a host-accessible space: returns immediately when `!array || end <=
begin`, else delegates to `ArrayOpsBase::destroy`.  Result: the heap
after the call and the list of destructor invocations. -/
def arrayOpsDestroy (dtorEffect : Heap → Int → Heap) (trivialDtor : Bool)
    (h : Heap) (array : Option Nat) (b e : Int) : Heap × List Int :=
  if array = none ∨ e ≤ b then (h, [])
  else (baseDestroyHeap dtorEffect trivialDtor h b e, destroyCalls trivialDtor b e)

/-- `std::memmove(array + dst, array + src_begin, (src_end - src_begin) *
sizeof(T))` on block `p`: offsets `[dst, dst + (srcE - srcB))` take the
source range's old values, everything else is unchanged. -/
def memmoveH (h : Heap) (p : Nat) (srcB srcE dst : Int) : Heap :=
  fun q j =>
    if q = p ∧ dst ≤ j ∧ j < dst + (srcE - srcB) then h p (srcB + (j - dst))
    else h q j

/-- `detail::ArrayOps<T, SPACE>::move(array, src_begin, src_end, dst,
allocId)` for a host-accessible space: returns immediately when
`src_begin >= src_end`, else delegates to `ArrayOpsBase::move`
(a `memmove`). -/
def arrayOpsMove (h : Heap) (p : Nat) (srcB srcE dst : Int) : Heap :=
  if srcE ≤ srcB then h else memmoveH h p srcB srcE dst

/-! ## Memory management primitives (memory_management.hpp, the
host-only / no-Umpire configuration, where the primitives delegate to the
platform allocator) -/

/-- The allocation-primitive state: which block addresses are live (and
their contents, as element lists), plus a fresh-address counter.  A
pointer is `Option Nat`; `none` is the null pointer. -/
structure AllocState where
  blocks : Nat → Option (List Int)
  next : Nat

/-- `axom::free(T*& pointer)`: `std::free(pointer)` followed by
`pointer = nullptr`.  Freeing null is a no-op; the result's second
component is the nulled pointer variable. -/
def axomFree (s : AllocState) (p : Option Nat) : AllocState × Option Nat :=
  match p with
  | none => (s, none)
  | some a =>
    ({ blocks := fun q => if q = a then none else s.blocks q, next := s.next }, none)

/-- Modelled from the spec: `std::realloc(pointer, numbytes)` for
`numbytes > 0` — the platform allocator the no-Umpire configuration
delegates to (spec section 4.1: "malloc/realloc/free semantics",
"preserving existing bytes up to min(old,new)").  The surviving prefix
keeps the old contents; newly exposed slots hold an arbitrary value
(modeled as 0); the old block is released and a fresh address returned.
`realloc(nullptr, n)` behaves as `malloc(n)`. -/
def stdRealloc (s : AllocState) (p : Option Nat) (n : Nat) : AllocState × Option Nat :=
  match p with
  | none =>
    ({ blocks := fun q => if q = s.next then some (List.replicate n 0) else s.blocks q,
       next := s.next + 1 }, some s.next)
  | some a =>
    match s.blocks a with
    | none => (s, none)
    | some old =>
      let newBlock := old.take n ++ List.replicate (n - old.length) 0
      ({ blocks := fun q =>
           if q = s.next then some newBlock
           else if q = a then none else s.blocks q,
         next := s.next + 1 }, some s.next)

/-- `axom::realloc<T>(pointer, n)` (no-Umpire branch): when `n == 0` it
calls `axom::free(pointer)` and returns null, otherwise it delegates to
`std::realloc` with `n * sizeof(T)` bytes (sizes here are counted in
elements, so the `sizeof` scaling drops out). -/
def axomRealloc (s : AllocState) (p : Option Nat) (n : Nat) : AllocState × Option Nat :=
  if n = 0 then axomFree s p
  else stdRealloc s p n

/-- A concrete allocation state with one live block at address 1. -/
def alloc1 : AllocState :=
  ⟨fun q => if q = 1 then some [7, 8, 9] else none, 2⟩

/-- The behavior of the platform allocator on a zero-size request is
implementation-defined (C standard): either null or a unique non-null
pointer.  The choice is a property of the platform, not of the axom
code. -/
structure PlatformModel where
  zeroSizeReturnsNull : Bool

/-- Modelled from the spec: `std::malloc(numbytes)` — the platform
allocator of the no-Umpire configuration (spec section 4.1).  A positive
request returns a fresh block (allocation failure, which would return
null, is outside the claims and not modeled); a zero-size request returns
null or a fresh empty block according to the platform. -/
def stdMalloc (impl : PlatformModel) (s : AllocState) (nbytes : Nat) :
    AllocState × Option Nat :=
  if nbytes = 0 ∧ impl.zeroSizeReturnsNull = true then (s, none)
  else
    ({ blocks := fun q => if q = s.next then some (List.replicate nbytes 0) else s.blocks q,
       next := s.next + 1 }, some s.next)

/-- `MemorySpace::HOST` in the host-only configuration. -/
def HOST : Int := 0

/-- `MemorySpace::NUM_MEMORY_SPACES` in the host-only configuration:
only `HOST` precedes it in the enum. -/
def NUM_MEMORY_SPACES : Int := 1

/-- The precondition `assert` at the top of `axom::alloc`:
`spaceId >= HOST && spaceId < NUM_MEMORY_SPACES`. -/
def allocSpaceAssert (spaceId : Int) : Bool :=
  decide (HOST ≤ spaceId ∧ spaceId < NUM_MEMORY_SPACES)

/-- `axom::alloc<T>(n, spaceId)` (no-Umpire branch): computes
`numbytes = n * sizeof(T)` and returns `std::malloc(numbytes)`;
`spaceId` is only used by the assertion. -/
def axomAlloc (impl : PlatformModel) (s : AllocState) (sizeofT n : Nat)
    (_spaceId : Int) : AllocState × Option Nat :=
  stdMalloc impl s (n * sizeofT)

/-- A concrete empty allocation state. -/
def emptyAlloc : AllocState := ⟨fun _ => none, 0⟩

/-! ## Equality comparison (ArrayBase.hpp, `operator==`) -/

/-- The element loop of `operator==`:
`for(i = 0; i < lhs.size(); i++) if(!(lhs[i] == rhs[i])) return false;`,
expressed as a conjunction over the first `n` flat elements. -/
def eqLoop (l r : ArrayModel) : Nat → Bool
  | 0 => true
  | n + 1 => eqLoop l r n && (l.data.getD n 0 == r.data.getD n 0)

/-- `operator==(lhs, rhs)`: false on differing `getAllocatorID()`, false
on differing `shape()`, else the element loop over `[0, lhs.size())`. -/
def arrayEq (l r : ArrayModel) : Bool :=
  if l.allocId ≠ r.allocId then false
  else if l.dims ≠ r.dims then false
  else eqLoop l r (sizeM l).toNat

/-- Two arrays with identical shape and elements under allocator id 0. -/
def eqA : ArrayModel := arrayBaseMk [2] [1, 2] 0

/-- The same shape and elements as `eqA`, but allocator id 1. -/
def eqB : ArrayModel := arrayBaseMk [2] [1, 2] 1

/-! ## sidre-backed Array growth (unnamed sidre Array header,
`Array<T>::dynamicRealloc`), backed by `utilities::realloc` -/

/-- Conversion of a `double` value to `IndexType`: truncation toward
zero, modeled exactly on `ℚ` (the doubles arising in the claims — resize
ratios like 2.0 and the products below — are exactly representable, so
the double arithmetic is exact rational arithmetic). -/
def truncQ (q : ℚ) : Int := Int.tdiv q.num (q.den : Int)

/-- The effect of `utilities::realloc(m_data, n)` on the buffer contents:
the surviving prefix is preserved, newly exposed slots are arbitrary
(modeled as 0). -/
def resizeList (l : List Int) (n : Nat) : List Int :=
  l.take n ++ List.replicate (n - l.length) 0

/-- The sidre `Array<T>` state used by `dynamicRealloc`: `m_num_tuples`,
`m_capacity` (in tuples), `m_num_components`, `m_resize_ratio` (a
`double`, modeled as an exact rational), `m_is_external`, and the flat
buffer (the non-sidre-view branch, `m_view == nullptr`). -/
structure SidreArray where
  numTuples : Int
  capacity : Int
  numComponents : Int
  resizeFactor : ℚ
  isExternal : Bool
  data : List Int

/-- `Array<T>::dynamicRealloc(new_num_tuples)`: errors if the data is
external or the resize ratio is below 1.0, else sets
`m_capacity = new_num_tuples * m_resize_ratio + 0.5` (double arithmetic,
truncated on assignment to `IndexType`) and reallocates the buffer to
`m_capacity * m_num_components` elements. -/
def dynamicRealloc (a : SidreArray) (newNumTuples : Int) : Except String SidreArray :=
  if a.isExternal then Except.error "Cannot change the capacity of external data."
  else if a.resizeFactor < 1 then
    Except.error "Resize ratio doesn't support dynamic resizing"
  else
    let newCap := truncQ ((newNumTuples : ℚ) * a.resizeFactor + 1 / 2)
    Except.ok { a with capacity := newCap
                       data := resizeList a.data (newCap * a.numComponents).toNat }

/-- `Array<T>::updateNumTuples(new_num_tuples)`: records the new tuple
count (the debug assertions `0 <= n <= m_capacity` hold at every call
site below). -/
def updateNumTuples (a : SidreArray) (n : Int) : SidreArray :=
  { a with numTuples := n }

/-- Modelled from the spec: `utilities::Array<T>::push_back` — the
growth-operation plumbing lives in axom/core/utilities/Array.hpp, which
is not among the given sources.  Per spec section 4.4, a growth operation
requesting `n = size + 1` elements triggers `dynamicRealloc(n)` when
`n > capacity`, then writes the new tuple and updates the size. -/
def pushBack (a : SidreArray) (v : Int) : Except String SidreArray :=
  let newNum := a.numTuples + 1
  if a.capacity < newNum then
    match dynamicRealloc a newNum with
    | Except.error msg => Except.error msg
    | Except.ok a' =>
      Except.ok (updateNumTuples
        { a' with data := a'.data.set (a'.numTuples * a'.numComponents).toNat v } newNum)
  else
    Except.ok (updateNumTuples
      { a with data := a.data.set (a.numTuples * a.numComponents).toNat v } newNum)

/-- The size-3, capacity-3, single-component array `{1,2,3}` with resize
ratio 2.0 from the spec's growth scenario. -/
def sidreA0 : SidreArray := ⟨3, 3, 1, 2, false, [1, 2, 3]⟩

/-! ## Theorems -/

theorem headI_eq_getD (l : List Int) : l.headI = l.getD 0 0 := by
  cases l <;> rfl

theorem updateStrides_length (dims : List Int) :
    (updateStrides dims).length = dims.length := by
  match dims with
  | [] => rfl
  | [_] => rfl
  | _ :: d :: rest =>
    simp only [updateStrides, List.length_cons]
    rw [updateStrides_length (d :: rest)]
    rfl

theorem updateStrides_ne_nil (dims : List Int) (h : dims ≠ []) :
    updateStrides dims ≠ [] := by
  intro hc
  have := updateStrides_length dims
  rw [hc] at this
  cases dims with
  | nil => exact h rfl
  | cons x xs => simp at this

theorem updateStrides_rowMajor (dims : List Int) (h : dims ≠ []) :
    rowMajor dims (updateStrides dims) := by
  match dims with
  | [d] =>
    refine ⟨rfl, rfl, ?_⟩
    intro i hi
    simp at hi
  | d0 :: d1 :: rest =>
    obtain ⟨ih1, ih2, ih3⟩ := updateStrides_rowMajor (d1 :: rest) (by simp)
    have hne : updateStrides (d1 :: rest) ≠ [] :=
      updateStrides_ne_nil (d1 :: rest) (by simp)
    refine ⟨?_, ?_, ?_⟩
    · simp only [updateStrides, List.length_cons]
      rw [updateStrides_length (d1 :: rest)]
      rfl
    · show (((updateStrides (d1 :: rest)).headI * d1) ::
        updateStrides (d1 :: rest)).getLast? = some 1
      obtain ⟨x, xs, hx⟩ := List.exists_cons_of_ne_nil hne
      rw [hx] at ih2 ⊢
      rw [List.getLast?_cons_cons]
      exact ih2
    · intro i hi
      match i with
      | 0 =>
        show (updateStrides (d1 :: rest)).headI * d1 =
          (updateStrides (d1 :: rest)).getD 0 0 * d1
        rw [headI_eq_getD]
      | (j + 1) =>
        have hj : j < (d1 :: rest).length - 1 := by
          simp only [List.length_cons] at hi ⊢
          omega
        have := ih3 j hj
        show (updateStrides (d1 :: rest)).getD j 0 =
          (updateStrides (d1 :: rest)).getD (j + 1) 0 *
            (d1 :: rest).getD (j + 1) 0
        exact this

/-- Claim C2: after every shape-mutating operation (construction with a
shape, insert), the stride tuple equals the row-major derivation from the
current shape — innermost stride 1 and `stride[i] = stride[i+1] *
shape[i+1]` — and `updateStrides` is idempotent (it reads only the shape,
which it never changes), so strides and shape never diverge. -/
theorem strides_always_rowMajor (dims data : List Int) (allocId pos : Int)
    (a other r : ArrayModel) (hdims : dims ≠ [])
    (hins : insertArr pos a other = Except.ok r) :
    rowMajor (arrayBaseMk dims data allocId).dims (arrayBaseMk dims data allocId).strides
      ∧ rowMajor r.dims r.strides
      ∧ (∀ s : ArrayModel, applyUpdateStrides (applyUpdateStrides s) = applyUpdateStrides s)
      ∧ (∀ s : ArrayModel, (applyUpdateStrides s).dims = s.dims) := by
  refine ⟨updateStrides_rowMajor dims hdims, ?_, fun s => rfl, fun s => rfl⟩
  unfold insertArr at hins
  split at hins
  · rename_i hmatch
    injection hins with hr
    subst hr
    exact updateStrides_rowMajor _ (by simp)
  · exact absurd hins (by simp)

/-- Witness for `strides_always_rowMajor` at a concrete 2-D input. -/
theorem strides_always_rowMajor_witness :
    rowMajor (arrayBaseMk [2, 3] [0, 1, 2, 3, 4, 5] 0).dims
        (arrayBaseMk [2, 3] [0, 1, 2, 3, 4, 5] 0).strides
      ∧ rowMajor (ArrayModel.mk [2, 3] [3, 1] [0, 1, 2, 9, 9, 9] 0).dims
        (ArrayModel.mk [2, 3] [3, 1] [0, 1, 2, 9, 9, 9] 0).strides
      ∧ (∀ s : ArrayModel, applyUpdateStrides (applyUpdateStrides s) = applyUpdateStrides s)
      ∧ (∀ s : ArrayModel, (applyUpdateStrides s).dims = s.dims) :=
  strides_always_rowMajor [2, 3] [0, 1, 2, 3, 4, 5] 0 3
    (arrayBaseMk [1, 3] [0, 1, 2] 0) (arrayBaseMk [1, 3] [9, 9, 9] 0)
    (ArrayModel.mk [2, 3] [3, 1] [0, 1, 2, 9, 9, 9] 0)
    (by decide) (by rfl)

/-- Claim C4: `insert(pos, other)` with mismatching non-leading extents
aborts with the shape-mismatch diagnostic, and the state carried at the
abort is exactly the original array — shape, strides and elements are
untouched, because the check precedes every mutation in
`ArrayBase::insert`. -/
theorem insert_mismatch_aborts (pos : Int) (a other : ArrayModel)
    (h : a.dims.tail ≠ other.dims.tail) :
    insertArr pos a other =
      Except.error ("Cannot append a multidimensional array of incorrect shape.", a) := by
  unfold insertArr
  rw [if_neg h]

/-- Witness for `insert_mismatch_aborts`: a `{3,4}`-shaped array and a
`{2,5}`-shaped argument (mismatched trailing extent). -/
theorem insert_mismatch_aborts_witness :
    insertArr 0 (arrayBaseMk [3, 4] (List.replicate 12 7) 0)
        (arrayBaseMk [2, 5] (List.replicate 10 1) 0) =
      Except.error ("Cannot append a multidimensional array of incorrect shape.",
        arrayBaseMk [3, 4] (List.replicate 12 7) 0) :=
  insert_mismatch_aborts 0 (arrayBaseMk [3, 4] (List.replicate 12 7) 0)
    (arrayBaseMk [2, 5] (List.replicate 10 1) 0) (by decide)

theorem updateStrides_headI (d : Int) (tl : List Int) :
    (updateStrides (d :: tl)).headI = tl.prod := by
  match tl with
  | [] => rfl
  | d1 :: rest =>
    show (updateStrides (d1 :: rest)).headI * d1 = (d1 :: rest).prod
    rw [updateStrides_headI d1 rest, List.prod_cons, mul_comm]

theorem dotProd_bounds :
    ∀ (dims idxs : List Int), dims ≠ [] → idxs.length = dims.length →
      (∀ k < dims.length, 0 ≤ idxs.getD k 0 ∧ idxs.getD k 0 < dims.getD k 0) →
      0 ≤ dotProd idxs (updateStrides dims) ∧
        dotProd idxs (updateStrides dims) < dims.prod := by
  intro dims
  induction dims with
  | nil => intro idxs h; exact absurd rfl h
  | cons d tl ih =>
    intro idxs _ hlen hax
    obtain ⟨i, is, rfl⟩ : ∃ i is, idxs = i :: is := by
      cases idxs with
      | nil => simp at hlen
      | cons i is => exact ⟨i, is, rfl⟩
    have hi : 0 ≤ i ∧ i < d := by simpa using hax 0 (by simp)
    cases tl with
    | nil =>
      have : is = [] := List.length_eq_zero.mp (by simpa using hlen)
      subst this
      show 0 ≤ i * 1 + 0 ∧ i * 1 + 0 < [d].prod
      simp only [mul_one, add_zero, List.prod_cons, List.prod_nil]
      exact ⟨hi.1, by simpa using hi.2⟩
    | cons d1 rest =>
      have hax' : ∀ k < (d1 :: rest).length,
          0 ≤ is.getD k 0 ∧ is.getD k 0 < (d1 :: rest).getD k 0 := by
        intro k hk
        have := hax (k + 1) (by simp only [List.length_cons] at hk ⊢; omega)
        simpa using this
      have ihis := ih is (by simp) (by simpa using hlen) hax'
      have hH : (updateStrides (d1 :: rest)).headI * d1 = (d1 :: rest).prod := by
        rw [updateStrides_headI d1 rest, List.prod_cons, mul_comm]
      have hstep : dotProd (i :: is) (updateStrides (d :: d1 :: rest)) =
          i * (d1 :: rest).prod + dotProd is (updateStrides (d1 :: rest)) := by
        show i * ((updateStrides (d1 :: rest)).headI * d1) +
            dotProd is (updateStrides (d1 :: rest)) = _
        rw [hH]
      rw [hstep]
      have hPpos : 0 < (d1 :: rest).prod := lt_of_le_of_lt ihis.1 ihis.2
      constructor
      · exact add_nonneg (mul_nonneg hi.1 hPpos.le) ihis.1
      · rw [show (d :: d1 :: rest).prod = d * (d1 :: rest).prod from List.prod_cons]
        nlinarith [ihis.2, hi.2, hPpos]

/-- Claim C3 (amended): the multi-index accessor returns the element at
the flat offset given by the dot product of the index tuple with the
stride tuple (for shape `{2,3}` filled row-major with `0..5`,
`arr(1,2) = 5` and `arr(0,0) = 0`, see the witness); the bounds assertion
checks that the flat offset lies in `[0, size())` — so any index tuple
within the per-axis bounds passes it — but an index tuple violating the
per-axis precondition whose flat offset still lands in `[0, size())` is
not caught (see the counterexample). -/
theorem accessor_dot_product (a : ArrayModel) (idxs : List Int)
    (hstr : a.strides = updateStrides a.dims) (hd : a.dims ≠ [])
    (hlen : idxs.length = a.dims.length)
    (hax : ∀ k < a.dims.length, 0 ≤ idxs.getD k 0 ∧ idxs.getD k 0 < a.dims.getD k 0) :
    (∀ j : Int, inBoundsM a j = true ↔ 0 ≤ j ∧ j < sizeM a)
      ∧ (0 ≤ flatIndex a idxs ∧ flatIndex a idxs < sizeM a)
      ∧ opParen a idxs = some (elemAt a (flatIndex a idxs)) := by
  have hb := dotProd_bounds a.dims idxs hd hlen hax
  have hfl : flatIndex a idxs = dotProd idxs (updateStrides a.dims) := by
    rw [flatIndex, hstr]
  have hbounds : 0 ≤ flatIndex a idxs ∧ flatIndex a idxs < sizeM a := by
    rw [hfl]; exact hb
  refine ⟨fun j => by simp [inBoundsM], hbounds, ?_⟩
  rw [opParen, if_pos]
  simpa [inBoundsM] using hbounds

/-- Claim C3 counterexample: on shape `{2,3}` the index tuple `(0,5)`
violates the per-axis precondition (`5 ≥ shape[1] = 3`), yet the accessor
assertion passes — `inBounds` only checks the flat offset `0*3+5*1 = 5 <
6` — and an element is returned, so the per-axis precondition is not what
the bounds assertion checks. -/
theorem accessor_assert_not_per_axis :
    (¬ ∀ k < arr23.dims.length,
        0 ≤ ([0, 5] : List Int).getD k 0 ∧
          ([0, 5] : List Int).getD k 0 < arr23.dims.getD k 0)
      ∧ inBoundsM arr23 (flatIndex arr23 [0, 5]) = true
      ∧ opParen arr23 [0, 5] = some 5 := by decide

/-- Witness for `accessor_dot_product`: `arr(1,2) = 5` and
`arr(0,0) = 0`. -/
theorem accessor_dot_product_witness :
    opParen arr23 [1, 2] = some 5 ∧ opParen arr23 [0, 0] = some 0 :=
  ⟨((accessor_dot_product arr23 [1, 2] rfl (by decide) (by decide)
      (by decide)).2.2).trans (by decide),
   ((accessor_dot_product arr23 [0, 0] rfl (by decide) (by decide)
      (by decide)).2.2).trans (by decide)⟩

/-- Claim C5: constructing an ArrayView from an Array-like object copies
the shape/stride metadata and the data pointer without copying elements,
so a write through the view at any valid index is read back through the
original Array (the two alias one buffer). -/
theorem view_aliases_array (h : Heap) (a : ArrayWithPtr) (i x : Int)
    (_hi : 0 ≤ i ∧ i < a.numElements) :
    (makeArrayView a).dims = a.dims ∧ (makeArrayView a).strides = a.strides
      ∧ (makeArrayView a).ptr = a.ptr
      ∧ (makeArrayView a).numElements = a.numElements
      ∧ (makeArrayView a).allocId = a.allocId
      ∧ arrGet (viewSet h (makeArrayView a) i x) a i = x := by
  refine ⟨rfl, rfl, rfl, rfl, rfl, ?_⟩
  simp [arrGet, viewSet, heapWrite, makeArrayView]

/-- Witness for `view_aliases_array`: write 42 at index 1 through the
view, read 42 back through the array. -/
theorem view_aliases_array_witness :
    arrGet (viewSet heap0 (makeArrayView own0) 1 42) own0 1 = 42 :=
  (view_aliases_array heap0 own0 1 42 (by decide)).2.2.2.2.2

theorem mem_destroyCalls (b e i : Int) :
    i ∈ destroyCalls false b e ↔ b ≤ i ∧ i < e := by
  rw [show destroyCalls false b e =
    (List.range (e - b).toNat).map (fun (k : Nat) => b + (k : Int)) from rfl]
  rw [List.mem_map]
  constructor
  · rintro ⟨k, hk, rfl⟩
    rw [List.mem_range] at hk
    omega
  · intro hbe
    exact ⟨(i - b).toNat, List.mem_range.mpr (by omega), by omega⟩

theorem nodup_destroyCalls (b e : Int) : (destroyCalls false b e).Nodup := by
  rw [show destroyCalls false b e =
    (List.range (e - b).toNat).map (fun (k : Nat) => b + (k : Int)) from rfl]
  exact List.Nodup.map (fun x y hxy => by omega) (List.nodup_range _)

/-- Claim C6: `destroy(data, begin, end)` invokes the destructor of each
element of `[begin, end)` exactly once (and of nothing else) when `T` has
a non-trivial destructor, and performs zero destructor invocations when
`T` is trivially destructible. -/
theorem destroy_each_exactly_once (b e i : Int) :
    destroyCalls true b e = []
      ∧ (destroyCalls false b e).count i = (if b ≤ i ∧ i < e then 1 else 0) := by
  refine ⟨rfl, ?_⟩
  by_cases hbe : b ≤ i ∧ i < e
  · rw [if_pos hbe]
    exact List.count_eq_one_of_mem (nodup_destroyCalls b e)
      ((mem_destroyCalls b e i).mpr hbe)
  · rw [if_neg hbe]
    exact List.count_eq_zero_of_not_mem
      (fun hmem => hbe ((mem_destroyCalls b e i).mp hmem))

/-- Claim C10: the dispatched lifecycle operations tolerate degenerate
arguments — `destroy` is a complete no-op (no destructor runs, the heap
is untouched) whenever the array pointer is null or `end <= begin`, and
`move` leaves the heap untouched whenever `src_begin >= src_end`. -/
theorem lifecycle_degenerate_noop (dtorEffect : Heap → Int → Heap)
    (trivialDtor : Bool) (h h2 : Heap) (array : Option Nat) (b e : Int)
    (p : Nat) (srcB srcE dst : Int)
    (hd : array = none ∨ e ≤ b) (hm : srcB ≥ srcE) :
    arrayOpsDestroy dtorEffect trivialDtor h array b e = (h, [])
      ∧ arrayOpsMove h2 p srcB srcE dst = h2 := by
  constructor
  · rw [arrayOpsDestroy, if_pos hd]
  · rw [arrayOpsMove, if_pos hm]

/-- Witness for `lifecycle_degenerate_noop`: a null array pointer for
`destroy` and an empty source range for `move`. -/
theorem lifecycle_degenerate_noop_witness :
    arrayOpsDestroy (fun h _ => h) false heap0 none 0 5 = (heap0, [])
      ∧ arrayOpsMove heap0 9 3 3 0 = heap0 :=
  lifecycle_degenerate_noop (fun h _ => h) false heap0 heap0 none 0 5 9 3 3 0
    (Or.inl rfl) (by decide)

/-- Claim C7: for a pointer previously obtained from the allocation
primitives, `reallocate(p, 0)` is equivalent to freeing `p` and returns
null (the block is gone afterwards); for `n > 0` the new block has length
`n` and preserves the existing contents up to `min(old, new)`. -/
theorem realloc_zero_frees_and_preserves (s : AllocState) (a : Nat)
    (old : List Int) (n : Nat) (halloc : s.blocks a = some old) :
    (axomRealloc s (some a) 0 = axomFree s (some a)
      ∧ (axomRealloc s (some a) 0).2 = none
      ∧ (axomRealloc s (some a) 0).1.blocks a = none)
    ∧ (0 < n →
        (axomRealloc s (some a) n).2 = some s.next
        ∧ ∃ newBlock,
            (axomRealloc s (some a) n).1.blocks s.next = some newBlock
            ∧ newBlock.length = n
            ∧ newBlock.take (min n old.length) = old.take (min n old.length)) := by
  constructor
  · refine ⟨rfl, rfl, ?_⟩
    show (axomFree s (some a)).1.blocks a = none
    simp [axomFree]
  · intro hn
    have hrw : axomRealloc s (some a) n = stdRealloc s (some a) n := by
      rw [axomRealloc, if_neg (by omega)]
    rw [hrw]
    have hrw2 : stdRealloc s (some a) n =
        ({ blocks := fun q =>
             if q = s.next then some (old.take n ++ List.replicate (n - old.length) 0)
             else if q = a then none else s.blocks q,
           next := s.next + 1 }, some s.next) := by
      rw [stdRealloc]
      rw [halloc]
    rw [hrw2]
    refine ⟨rfl, old.take n ++ List.replicate (n - old.length) 0, by simp, ?_, ?_⟩
    · simp only [List.length_append, List.length_take, List.length_replicate]
      omega
    · rw [List.take_append_of_le_length (by rw [List.length_take]),
        List.take_take]
      congr 1
      omega

/-- Witness for `realloc_zero_frees_and_preserves`: shrink the 3-element
block at address 1 to 2 elements, and separately realloc it to 0. -/
theorem realloc_zero_frees_and_preserves_witness :
    (axomRealloc alloc1 (some 1) 0).2 = none
      ∧ (axomRealloc alloc1 (some 1) 2).2 = some 2 :=
  ⟨(realloc_zero_frees_and_preserves alloc1 1 [7, 8, 9] 2 (by decide)).1.2.1,
   ((realloc_zero_frees_and_preserves alloc1 1 [7, 8, 9] 2 (by decide)).2
      (by decide)).1⟩

/-- Claim C8 counterexample: `axom::alloc` contains no `n == 0` check —
it forwards `0 * sizeof(T) = 0` bytes to the platform allocator — so on a
conforming platform whose zero-size `malloc` returns a unique non-null
pointer (e.g. glibc), `alloc<T>(0, HOST)` returns a non-null result,
refuting "returns a null result whenever n == 0". -/
theorem alloc_zero_nonnull_counterexample :
    allocSpaceAssert HOST = true
      ∧ (axomAlloc ⟨false⟩ emptyAlloc 4 0 HOST).2 = some 0
      ∧ ¬((axomAlloc ⟨false⟩ emptyAlloc 4 0 HOST).2 = none) := by decide

/-- Claim C8 (amended): `alloc<T>(n, space)` forwards `n * sizeof(T)`
bytes to the platform allocator and returns its result, so for `n == 0`
it returns null exactly when the platform's zero-size `malloc` does
(implementation-defined); an out-of-range space id is a precondition
violation checked by an assertion (`spaceId >= HOST && spaceId <
NUM_MEMORY_SPACES`), not a recoverable runtime error. -/
theorem alloc_delegates_to_malloc (impl : PlatformModel) (s : AllocState)
    (sizeofT n : Nat) (spaceId : Int) :
    (allocSpaceAssert spaceId = true ↔ HOST ≤ spaceId ∧ spaceId < NUM_MEMORY_SPACES)
      ∧ axomAlloc impl s sizeofT n spaceId = stdMalloc impl s (n * sizeofT)
      ∧ (impl.zeroSizeReturnsNull = true →
          (axomAlloc impl s sizeofT 0 spaceId).2 = none) := by
  refine ⟨by simp [allocSpaceAssert], rfl, fun hz => ?_⟩
  rw [axomAlloc, stdMalloc, if_pos ⟨by simp, hz⟩]

/-- Witness for `alloc_delegates_to_malloc`: on a platform whose
zero-size `malloc` returns null, `alloc<T>(0, HOST)` returns null. -/
theorem alloc_delegates_to_malloc_witness :
    (axomAlloc ⟨true⟩ emptyAlloc 4 0 HOST).2 = none :=
  (alloc_delegates_to_malloc ⟨true⟩ emptyAlloc 4 0 HOST).2.2 rfl

theorem eqLoop_eq_true_iff (l r : ArrayModel) (n : Nat) :
    eqLoop l r n = true ↔ ∀ i < n, l.data.getD i 0 = r.data.getD i 0 := by
  induction n with
  | zero => simp [eqLoop]
  | succ m ih =>
    rw [show eqLoop l r (m + 1) =
      (eqLoop l r m && (l.data.getD m 0 == r.data.getD m 0)) from rfl]
    rw [Bool.and_eq_true, ih, beq_iff_eq]
    constructor
    · rintro ⟨hall, hm⟩ i hi
      rcases Nat.lt_succ_iff_lt_or_eq.mp hi with h | h
      · exact hall i h
      · subst h; exact hm
    · intro hall
      exact ⟨fun i hi => hall i (Nat.lt_succ_of_lt hi), hall m (Nat.lt_succ_self m)⟩

/-- Claim C9: `operator==` on two Array-likes of the same element type
and dimension returns true iff their allocator IDs are equal, their
shapes are equal, and all corresponding elements (over the left operand's
flat size) are equal; in particular, differing allocator IDs alone force
inequality. -/
theorem operator_eq_iff (l r : ArrayModel) :
    (arrayEq l r = true ↔
      l.allocId = r.allocId ∧ l.dims = r.dims ∧
        ∀ i < (sizeM l).toNat, l.data.getD i 0 = r.data.getD i 0)
    ∧ (l.allocId ≠ r.allocId → arrayEq l r = false) := by
  constructor
  · by_cases h1 : l.allocId = r.allocId
    · by_cases h2 : l.dims = r.dims
      · rw [arrayEq, if_neg (fun hne => hne h1), if_neg (fun hne => hne h2),
          eqLoop_eq_true_iff]
        simp [h1, h2]
      · rw [arrayEq, if_neg (fun hne => hne h1), if_pos h2]
        simp [h2]
    · rw [arrayEq, if_pos h1]
      simp [h1]
  · intro hne
    rw [arrayEq, if_pos hne]

/-- Witness for `operator_eq_iff`: identical contents, different
allocator IDs, unequal arrays. -/
theorem operator_eq_iff_witness : arrayEq eqA eqB = false :=
  (operator_eq_iff eqA eqB).2 (by decide)

theorem truncQ_eq_floor_of_nonneg (q : ℚ) (hq : 0 ≤ q) : truncQ q = ⌊q⌋ := by
  have h1 : Int.tdiv q.num (q.den : Int) = q.num / (q.den : Int) :=
    Int.tdiv_eq_ediv (Rat.num_nonneg.mpr hq) (by positivity)
  show Int.tdiv q.num (q.den : Int) = ⌊q⌋
  rw [h1, Rat.floor_def]

theorem truncQ_17_half : truncQ (17 / 2) = 8 := by
  show Int.tdiv ((17 : ℚ) / 2).num ((((17 : ℚ) / 2).den : Nat) : Int) = 8
  rw [show ((17 : ℚ) / 2).num = 17 from by norm_num,
    show ((17 : ℚ) / 2).den = 2 from by norm_num]
  decide

theorem dynamicRealloc_sidreA0 :
    dynamicRealloc sidreA0 4 =
      Except.ok ⟨3, 8, 1, 2, false, [1, 2, 3, 0, 0, 0, 0, 0]⟩ := by
  rw [dynamicRealloc, if_neg (by decide), if_neg (by norm_num [sidreA0])]
  have hval : ((4 : Int) : ℚ) * sidreA0.resizeFactor + 1 / 2 = 17 / 2 := by
    show ((4 : Int) : ℚ) * (2 : ℚ) + 1 / 2 = 17 / 2
    norm_num
  rw [show ((4 : Int) : ℚ) * sidreA0.resizeFactor + 1 / 2 = 17 / 2 from hval,
    truncQ_17_half]
  rfl

theorem pushBack_sidreA0 :
    pushBack sidreA0 4 =
      Except.ok ⟨4, 8, 1, 2, false, [1, 2, 3, 4, 0, 0, 0, 0]⟩ := by
  rw [pushBack]
  rw [show sidreA0.numTuples + 1 = 4 from rfl]
  rw [if_pos (by decide : sidreA0.capacity < 4)]
  rw [dynamicRealloc_sidreA0]
  rfl

/-- Claim C1 counterexample: in the spec's growth scenario (size 3,
capacity 3, resize ratio 2.0, append a 4th element) `dynamicRealloc`
computes `m_capacity = new_num_tuples * m_resize_ratio + 0.5 =
trunc(4 * 2.0 + 0.5) = 8`, not `max(4, 3 * 2.0) = 6`: the capacity
becomes 8 (size becomes 4), refuting the claimed formula and the claimed
resulting capacity 6. -/
theorem dynamicRealloc_not_max_counterexample :
    (pushBack sidreA0 4).map (fun a => (a.capacity, a.numTuples)) =
        Except.ok ((8 : Int), (4 : Int))
      ∧ (8 : Int) ≠ 6 := by
  rw [pushBack_sidreA0]
  exact ⟨rfl, by decide⟩

/-- Claim C1 (amended): when a growth operation requests a new element
count `n` greater than the current capacity, `dynamicRealloc` sets the
new capacity to `trunc(n * growth_ratio + 0.5)` — which is at least `n`
whenever the ratio is at least 1 — leaving the size unchanged (the caller
updates it); in particular, for an array of size 3, capacity 3, growth
ratio 2.0, appending one element requests `n = 4` and yields capacity 8
and size 4 (see the witness). -/
theorem dynamicRealloc_capacity (a : SidreArray) (n : Int)
    (hext : a.isExternal = false) (hr : 1 ≤ a.resizeFactor) (hn : 0 ≤ n) :
    ∃ a', dynamicRealloc a n = Except.ok a'
      ∧ a'.capacity = truncQ ((n : ℚ) * a.resizeFactor + 1 / 2)
      ∧ n ≤ a'.capacity
      ∧ a'.numTuples = a.numTuples := by
  have hok : dynamicRealloc a n =
      Except.ok { a with
        capacity := truncQ ((n : ℚ) * a.resizeFactor + 1 / 2)
        data := resizeList a.data
          ((truncQ ((n : ℚ) * a.resizeFactor + 1 / 2)) * a.numComponents).toNat } := by
    rw [dynamicRealloc, if_neg (by simp [hext]), if_neg (not_lt.mpr hr)]
  refine ⟨_, hok, rfl, ?_, rfl⟩
  show n ≤ truncQ ((n : ℚ) * a.resizeFactor + 1 / 2)
  have hcast : (0 : ℚ) ≤ (n : ℚ) := by exact_mod_cast hn
  have hmul : (n : ℚ) * 1 ≤ (n : ℚ) * a.resizeFactor :=
    mul_le_mul_of_nonneg_left hr hcast
  have hq0 : (0 : ℚ) ≤ (n : ℚ) * a.resizeFactor + 1 / 2 := by nlinarith
  rw [truncQ_eq_floor_of_nonneg _ hq0]
  exact Int.le_floor.mpr (by nlinarith)

/-- Witness for `dynamicRealloc_capacity`: the spec scenario's
reallocation request, `dynamicRealloc` with `n = 4` on the size-3,
capacity-3, ratio-2.0 array, yields capacity 8 (with the size update
performed by the caller: `pushBack` then gives size 4, as in
`dynamicRealloc_not_max_counterexample`). -/
theorem dynamicRealloc_capacity_witness :
    (dynamicRealloc sidreA0 4).map SidreArray.capacity = Except.ok 8
      ∧ (4 : Int) ≤ 8 := by
  obtain ⟨a', hok, hcap, hle, -⟩ :=
    dynamicRealloc_capacity sidreA0 4 rfl (by norm_num [sidreA0]) (by decide)
  refine ⟨?_, by decide⟩
  rw [hok, Except.map, hcap]
  rw [show ((4 : Int) : ℚ) * sidreA0.resizeFactor + 1 / 2 = 17 / 2 from by
    show ((4 : Int) : ℚ) * (2 : ℚ) + 1 / 2 = 17 / 2
    norm_num]
  rw [truncQ_17_half]

end Axom

